import Mathlib

/-!
Verification of the polite SUUMO crawl controller.

Shallow embedding of the repository's core components:
* `src/sumo_scraping/station_mapping.py` — station-name → URL resolution;
* `src/sumo_scraping/polite_scraper.py` — the multi-target crawl loop with
  global room quota, page cap, mid-page quota break and tail truncation
  (`PoliteSuumoScraper.scrape_page`, `.scrape_station`, `._limit_properties`,
  `.scrape_all_stations`);
* `src/sumo_scraping/rate_limiter.py` — pacing (`RateLimiter.wait_for_request`),
  retries (`RetryManager.execute_with_retry`), monitoring
  (`RequestMonitor.record_request`) and their composition
  (`PoliteRequestManager.make_request`);
* `src/sumo_scraping/models.py` — the `ScrapingResult` session value and its
  validators.

The browser, the DOM and wall-clock sleeping are external capabilities; they
are modelled by an environment oracle (the sequence of page outcomes each
station serves), by an abstract element type (an element either parses to a
property or records one validation failure), and by a logical clock passed
explicitly to the pacing and monitoring functions.
-/

/-- Abstract payload of one `models.RoomInfo` record; the controller's quota
logic depends only on room identity and count, never on room fields. -/
abbrev RoomInfo := Nat

/-- Shallow embedding of `models.PropertyInfo`: the fields the controller
reads or writes — the list of rooms (the quota currency) and the
`station_name` tag set by `scrape_station` after collection. -/
structure PropertyInfo where
  rooms : List RoomInfo
  station_name : Option String
deriving DecidableEq

/-- Room payloads of a property list in order, flattened
(concatenation of `prop.rooms` over the list). -/
def flatRooms : List PropertyInfo → List RoomInfo
  | [] => []
  | p :: rest => p.rooms ++ flatRooms rest

/-- Total room count of a property list: the Python idiom
`sum(len(prop.rooms) for prop in ps)` used at every quota check. -/
def roomCount (ps : List PropertyInfo) : Nat :=
  (ps.map (fun p => p.rooms.length)).sum

theorem roomCount_nil : roomCount [] = 0 := rfl

theorem roomCount_cons (p : PropertyInfo) (ps : List PropertyInfo) :
    roomCount (p :: ps) = p.rooms.length + roomCount ps := by
  simp [roomCount]

theorem roomCount_append (a b : List PropertyInfo) :
    roomCount (a ++ b) = roomCount a + roomCount b := by
  simp [roomCount]

theorem roomCount_eq_length_flatRooms (ps : List PropertyInfo) :
    roomCount ps = (flatRooms ps).length := by
  induction ps with
  | nil => rfl
  | cons p rest ih => simp [flatRooms, roomCount_cons, ih]

/-! ## Station mapping (`station_mapping.py`) -/

/-- The `YAMANOTE_STATIONS` dictionary, as an ordered association list. -/
def YAMANOTE_STATIONS : List (String × String) :=
  [("渋谷", "ek_17640"), ("新宿", "ek_19670"), ("池袋", "ek_02060"),
   ("上野", "ek_04530"), ("東京", "ek_30140"), ("有楽町", "ek_41680"),
   ("新橋", "ek_20370"), ("浜松町", "ek_33030"), ("田町", "ek_22790"),
   ("品川", "ek_17630"), ("大崎", "ek_06280"), ("五反田", "ek_14840"),
   ("目黒", "ek_39210"), ("恵比寿", "ek_04150"), ("原宿", "ek_33060"),
   ("代々木", "ek_40960"), ("新大久保", "ek_20220"), ("高田馬場", "ek_22470"),
   ("目白", "ek_39220"), ("大塚", "ek_06380"), ("巣鴨", "ek_18120"),
   ("駒込", "ek_14990"), ("田端", "ek_22870"), ("西日暮里", "ek_29230"),
   ("日暮里", "ek_33330"), ("鶯谷", "ek_04590"), ("御徒町", "ek_39070"),
   ("秋葉原", "ek_01090"), ("神田", "ek_09950")]

/-- The `MAJOR_STATIONS` dictionary: the Yamanote table merged with the
other lines' entries (key sets are disjoint, so dict merge is append). -/
def MAJOR_STATIONS : List (String × String) :=
  YAMANOTE_STATIONS ++
  [("中野", "ek_27280"), ("吉祥寺", "ek_11640"), ("三鷹", "ek_36880"),
   ("荻窪", "ek_06640"), ("阿佐ヶ谷", "ek_01070"), ("高円寺", "ek_22290"),
   ("国分寺", "ek_15330"), ("立川", "ek_23520"),
   ("調布", "ek_24440"), ("府中", "ek_34370"), ("聖蹟桜ヶ丘", "ek_17890"),
   ("多摩センター", "ek_22760"),
   ("下北沢", "ek_16770"), ("経堂", "ek_12020"), ("成城学園前", "ek_18380"),
   ("登戸", "ek_30130"), ("新百合ヶ丘", "ek_20930"), ("町田", "ek_34220"),
   ("自由が丘", "ek_16900"), ("二子玉川", "ek_32270"), ("溝の口", "ek_36850"),
   ("武蔵小杉", "ek_38720"), ("日吉", "ek_33150"),
   ("大宮", "ek_06310"), ("浦和", "ek_04710"), ("川口", "ek_09870"),
   ("赤羽", "ek_01020"),
   ("船橋", "ek_34480"), ("津田沼", "ek_24780"), ("西船橋", "ek_29360"),
   ("市川", "ek_02990"),
   ("横浜", "ek_40940"), ("川崎", "ek_09920"), ("鶴見", "ek_25070"),
   ("新横浜", "ek_20390")]

/-- The supported station set: the keys of `MAJOR_STATIONS`
(`get_supported_stations` returns them sorted; membership is what the
resolution check uses). -/
def supported_stations : List String := MAJOR_STATIONS.map Prod.fst

/-- Shallow embedding of `station_mapping.get_station_url`: `none` models the
`ValueError` raised for a station name not in `MAJOR_STATIONS`; otherwise the
start URL is built from the prefecture and the station's code. -/
def get_station_url (station_name : String) (prefecture : String) : Option String :=
  match MAJOR_STATIONS.lookup station_name with
  | none => none
  | some code => some ("https://suumo.jp/chintai/" ++ prefecture ++ "/" ++ code ++ "/")

theorem lookup_eq_none_iff_notMem (l : List (String × String)) (a : String) :
    l.lookup a = none ↔ a ∉ l.map Prod.fst := by
  induction l with
  | nil => simp [List.lookup]
  | cons p rest ih =>
    obtain ⟨k, v⟩ := p
    by_cases h : a = k
    · subst h
      simp [List.lookup]
    · have hbeq : (a == k) = false := by
        simp [h]
      simp [List.lookup, hbeq, ih, h]

/-- C9: `get_station_url` fails (models the raised `ValueError`) exactly when
the station name is not in the supported set, and on a supported name it
returns the URL built from the prefecture and the station's code. -/
theorem get_station_url_spec (station_name prefecture : String) :
    (get_station_url station_name prefecture = none ↔
      station_name ∉ supported_stations)
    ∧ (∀ code, MAJOR_STATIONS.lookup station_name = some code →
        get_station_url station_name prefecture =
          some ("https://suumo.jp/chintai/" ++ prefecture ++ "/" ++ code ++ "/")) := by
  constructor
  · unfold supported_stations
    rw [← lookup_eq_none_iff_notMem MAJOR_STATIONS station_name]
    unfold get_station_url
    cases MAJOR_STATIONS.lookup station_name <;> simp
  · intro code hcode
    unfold get_station_url
    rw [hcode]

theorem get_station_url_spec_witness :
    get_station_url "渋谷" "tokyo" =
      some ("https://suumo.jp/chintai/" ++ "tokyo" ++ "/" ++ "ek_17640" ++ "/") :=
  (get_station_url_spec "渋谷" "tokyo").2 "ek_17640" (by decide)

/-! ## Quota truncation (`PoliteSuumoScraper._limit_properties`) -/

/-- Loop body of `_limit_properties`: walks the property list with the
running `room_count`; a property that fits whole is kept, otherwise its room
list is cut to the remaining need (when positive) and the loop breaks. -/
def limitAux (max_rooms : Nat) : List PropertyInfo → Nat → List PropertyInfo
  | [], _ => []
  | prop :: rest, room_count =>
    if room_count + prop.rooms.length ≤ max_rooms then
      prop :: limitAux max_rooms rest (room_count + prop.rooms.length)
    else
      if 0 < max_rooms - room_count then
        [{ prop with rooms := prop.rooms.take (max_rooms - room_count) }]
      else
        []

/-- Shallow embedding of `PoliteSuumoScraper._limit_properties`. -/
def limit_properties (properties : List PropertyInfo) (max_rooms : Nat) : List PropertyInfo :=
  limitAux max_rooms properties 0

theorem limitAux_spec (max_rooms : Nat) (ps : List PropertyInfo) :
    ∀ c, c ≤ max_rooms →
      (∃ t, flatRooms ps = flatRooms (limitAux max_rooms ps c) ++ t)
      ∧ (flatRooms (limitAux max_rooms ps c)).length =
          min (max_rooms - c) (flatRooms ps).length := by
  induction ps with
  | nil =>
    intro c _
    exact ⟨⟨[], rfl⟩, by simp [limitAux, flatRooms]⟩
  | cons p rest ih =>
    intro c hc
    by_cases hfit : c + p.rooms.length ≤ max_rooms
    · have hrec := ih (c + p.rooms.length) hfit
      obtain ⟨⟨t, ht⟩, hlen⟩ := hrec
      constructor
      · exact ⟨t, by simp [limitAux, hfit, flatRooms, ht]⟩
      · simp only [limitAux, hfit, if_pos, flatRooms, List.length_append, hlen]
        omega
    · by_cases hpos : 0 < max_rooms - c
      · constructor
        · refine ⟨p.rooms.drop (max_rooms - c) ++ flatRooms rest, ?_⟩
          simp only [limitAux, hfit, if_neg, hpos, if_pos, flatRooms,
            List.append_nil, ← List.append_assoc, List.take_append_drop]
        · simp only [limitAux, hfit, if_neg, hpos, if_pos, flatRooms,
            List.length_append, List.length_take, List.length_nil]
          omega
      · constructor
        · exact ⟨p.rooms ++ flatRooms rest, by simp [limitAux, hfit, hpos, flatRooms]⟩
        · simp only [limitAux, hfit, if_neg, hpos, flatRooms, List.length_nil]
          omega

/-- C5: truncation drops excess rooms only from the tail — the flattened room
sequence of the result is an initial segment of the flattened input (records
before the cut are unchanged), and its length is exactly
`min max_rooms (total rooms available)`, so when the quota check triggers with
enough rooms available the running total equals exactly the quota. -/
theorem limit_properties_spec (ps : List PropertyInfo) (max_rooms : Nat) :
    (∃ t, flatRooms ps = flatRooms (limit_properties ps max_rooms) ++ t)
    ∧ roomCount (limit_properties ps max_rooms) = min max_rooms (roomCount ps) := by
  have h := limitAux_spec max_rooms ps 0 (Nat.zero_le _)
  rw [roomCount_eq_length_flatRooms, roomCount_eq_length_flatRooms]
  simpa [limit_properties] using h

/-! ## The crawl session (`PoliteSuumoScraper`)

The environment oracle: for a station name, `none` models a resolution
failure (`get_station_url` raising, caught in `scrape_station`), and
`some pages` is the sequence of page outcomes the site serves in pagination
order — each page is `none` when its fetch fails after exhausted retries
(`scrape_page` catches the error and yields no properties) or
`some elems` with the parsed elements, each element being `none` when
extraction/validation fails (one entry in `validation_errors`) or
`some prop` for a valid property. -/

abbrev RawElem := Option PropertyInfo

abbrev PageFetch := Option (List RawElem)

abbrev ScrapeEnv := String → Option (List PageFetch)

/-- Element loop of `PoliteSuumoScraper.scrape_page`: appends each valid
property, counts each validation failure, and after every element breaks
once the committed rooms (`p`, from `self.properties`) plus the rooms
collected on this page reach the target `Q`. -/
def scrape_page_aux (Q p : Nat) :
    List RawElem → List PropertyInfo → Nat → List PropertyInfo × Nat
  | [], props, errs => (props, errs)
  | e :: rest, props, errs =>
    match e with
    | some pr =>
      if Q ≤ p + roomCount (props ++ [pr]) then (props ++ [pr], errs)
      else scrape_page_aux Q p rest (props ++ [pr]) errs
    | none =>
      if Q ≤ p + roomCount props then (props, errs + 1)
      else scrape_page_aux Q p rest props (errs + 1)

/-- Shallow embedding of `PoliteSuumoScraper.scrape_page`: a failed fetch is
caught and yields no properties and no validation errors; otherwise the
element loop runs from an empty page accumulator. -/
def scrape_page (Q p : Nat) : PageFetch → List PropertyInfo × Nat
  | none => ([], 0)
  | some elems => scrape_page_aux Q p elems [] 0

/-- Page loop of `PoliteSuumoScraper.scrape_station`: up to 10 pages
(`page_count < 10`), extend the station accumulator with each page's
properties, and once committed rooms `p` plus station rooms reach `Q`,
truncate the station accumulator to the remaining need `Q - p` and stop. -/
def scrape_station_aux (Q p : Nat) :
    Nat → List PageFetch → List PropertyInfo → Nat → List PropertyInfo × Nat
  | 0, _, acc, errs => (acc, errs)
  | _ + 1, [], acc, errs => (acc, errs)
  | fuel + 1, pg :: rest, acc, errs =>
    let page := scrape_page Q p pg
    if Q ≤ p + roomCount (acc ++ page.1) then
      (limit_properties (acc ++ page.1) (Q - p), errs + page.2)
    else
      scrape_station_aux Q p fuel rest (acc ++ page.1) (errs + page.2)

/-- Tag set on every collected property (`prop.station_name = station_name`
at the end of `scrape_station`). -/
def setStation (s : String) (p : PropertyInfo) : PropertyInfo :=
  { p with station_name := some s }

/-- Shallow embedding of `PoliteSuumoScraper.scrape_station`: an unknown
station (resolution failure, caught `ValueError`) contributes nothing;
otherwise the page loop runs and the collected properties are tagged with
the station name. `p` is the committed room count of `self.properties`. -/
def scrape_station (Q p : Nat) (env : ScrapeEnv) (s : String) :
    List PropertyInfo × Nat :=
  match env s with
  | none => ([], 0)
  | some pages =>
    let r := scrape_station_aux Q p 10 pages [] 0
    (r.1.map (setStation s), r.2)

/-- Station loop of `PoliteSuumoScraper.scrape_all_stations`: before each
station the committed rooms are checked against the target; otherwise the
station's (already truncated) properties are appended and its validation
failures accumulated. -/
def scrape_all_aux (Q : Nat) (env : ScrapeEnv) :
    List String → List PropertyInfo → Nat → List PropertyInfo × Nat
  | [], acc, errs => (acc, errs)
  | s :: rest, acc, errs =>
    if Q ≤ roomCount acc then (acc, errs)
    else
      let r := scrape_station Q (roomCount acc) env s
      scrape_all_aux Q env rest (acc ++ r.1) (errs + r.2)

/-- Shallow embedding of the collection phase of
`PoliteSuumoScraper.scrape_all_stations` (`self.properties` starts empty,
`self.validation_errors` starts empty): the collected properties and the
number of validation failures recorded. -/
def scrape_all_stations (env : ScrapeEnv) (stations : List String) (Q : Nat) :
    List PropertyInfo × Nat :=
  scrape_all_aux Q env stations [] 0

/-- Valid rooms available on one served page: rooms of the elements that
parse successfully; a failed fetch serves nothing. -/
def pageAvail : PageFetch → Nat
  | none => 0
  | some elems =>
    (elems.map (fun e => match e with
      | some pr => pr.rooms.length
      | none => 0)).sum

/-- Rooms obtainable from one station: valid rooms on the first 10 served
pages (the controller's page cap), zero when resolution fails. -/
def stationAvail (env : ScrapeEnv) (s : String) : Nat :=
  match env s with
  | none => 0
  | some pages => ((pages.take 10).map pageAvail).sum

/-- Rooms obtainable from the given targets: the total the controller could
collect with no quota in force. -/
def availableRooms (env : ScrapeEnv) (stations : List String) : Nat :=
  (stations.map (stationAvail env)).sum

/-! ## Quota accounting lemmas -/

theorem fst_pair {α β : Type} (a : α) (b : β) : (a, b).1 = a := rfl

theorem snd_pair {α β : Type} (a : α) (b : β) : (a, b).2 = b := rfl

theorem scrape_page_aux_spec (Q p : Nat) :
    ∀ (elems : List RawElem) (props : List PropertyInfo) (errs : Nat),
      roomCount (scrape_page_aux Q p elems props errs).1 ≤
          roomCount props + pageAvail (some elems)
      ∧ (Q ≤ p + roomCount props + pageAvail (some elems) →
          Q ≤ p + roomCount (scrape_page_aux Q p elems props errs).1)
      ∧ (p + roomCount props + pageAvail (some elems) < Q →
          roomCount (scrape_page_aux Q p elems props errs).1 =
            roomCount props + pageAvail (some elems)) := by
  intro elems
  induction elems with
  | nil =>
    intro props errs
    refine ⟨?_, ?_, ?_⟩ <;> simp [scrape_page_aux, pageAvail]
  | cons e rest ih =>
    intro props errs
    cases e with
    | some pr =>
      have hrc : roomCount (props ++ [pr]) = roomCount props + pr.rooms.length := by
        simp [roomCount]
      have hpa : pageAvail (some (some pr :: rest)) =
          pr.rooms.length + pageAvail (some rest) := by
        simp [pageAvail]
      by_cases hq : Q ≤ p + roomCount (props ++ [pr])
      · refine ⟨?_, ?_, ?_⟩ <;> simp only [scrape_page_aux, hq, if_pos, fst_pair]
        · omega
        · intro _
          trivial
        · intro h
          omega
      · obtain ⟨ha, hb, hc⟩ := ih (props ++ [pr]) errs
        refine ⟨?_, ?_, ?_⟩ <;> simp only [scrape_page_aux, hq, if_neg, if_false]
        · omega
        · intro h
          apply hb
          omega
        · intro h
          rw [hc (by omega)]
          omega
    | none =>
      have hpa : pageAvail (some (none :: rest)) = pageAvail (some rest) := by
        simp [pageAvail]
      by_cases hq : Q ≤ p + roomCount props
      · refine ⟨?_, ?_, ?_⟩ <;> simp only [scrape_page_aux, hq, if_pos, fst_pair]
        · omega
        · intro _
          trivial
        · intro h
          omega
      · obtain ⟨ha, hb, hc⟩ := ih props (errs + 1)
        refine ⟨?_, ?_, ?_⟩ <;> simp only [scrape_page_aux, hq, if_neg, if_false]
        · omega
        · intro h
          apply hb
          omega
        · intro h
          rw [hc (by omega)]
          omega

theorem scrape_page_facts (Q p : Nat) (pg : PageFetch) :
    roomCount (scrape_page Q p pg).1 ≤ pageAvail pg
    ∧ (Q ≤ p + pageAvail pg → Q ≤ p + roomCount (scrape_page Q p pg).1)
    ∧ (p + pageAvail pg < Q → roomCount (scrape_page Q p pg).1 = pageAvail pg) := by
  cases pg with
  | none => refine ⟨?_, ?_, ?_⟩ <;> simp [scrape_page, pageAvail, roomCount]
  | some elems =>
    have h := scrape_page_aux_spec Q p elems [] 0
    simpa [scrape_page, roomCount_nil] using h

theorem scrape_station_aux_rooms (Q p : Nat) :
    ∀ (pages : List PageFetch) (fuel : Nat) (acc : List PropertyInfo) (errs : Nat),
      p + roomCount acc < Q →
      roomCount (scrape_station_aux Q p fuel pages acc errs).1 =
        min (Q - p) (roomCount acc + ((pages.take fuel).map pageAvail).sum) := by
  intro pages
  induction pages with
  | nil =>
    intro fuel acc errs h
    cases fuel <;> simp [scrape_station_aux] <;> omega
  | cons pg rest ih =>
    intro fuel acc errs h
    cases fuel with
    | zero =>
      simp [scrape_station_aux]
      omega
    | succ fuel =>
      obtain ⟨ha, hb, hc⟩ := scrape_page_facts Q p pg
      have hacc : roomCount (acc ++ (scrape_page Q p pg).1) =
          roomCount acc + roomCount (scrape_page Q p pg).1 := roomCount_append _ _
      by_cases hq : Q ≤ p + roomCount (acc ++ (scrape_page Q p pg).1)
      · have hlim := (limit_properties_spec (acc ++ (scrape_page Q p pg).1) (Q - p)).2
        simp only [scrape_station_aux, hq, if_pos, List.take_succ_cons, List.map_cons,
          List.sum_cons]
        rw [hlim]
        omega
      · have hlt : p + pageAvail pg < Q := by
          by_contra hge
          push_neg at hge
          exact hq (le_trans (hb hge) (by omega))
        have hfull := hc hlt
        have hrec := ih fuel (acc ++ (scrape_page Q p pg).1) (errs + (scrape_page Q p pg).2)
          (by omega)
        simp only [scrape_station_aux, hq, if_neg, if_false, List.take_succ_cons,
          List.map_cons, List.sum_cons]
        rw [hrec]
        omega

theorem roomCount_map_setStation (s : String) (ps : List PropertyInfo) :
    roomCount (ps.map (setStation s)) = roomCount ps := by
  induction ps with
  | nil => rfl
  | cons p rest ih => simp [roomCount_cons, setStation, ih]

theorem scrape_station_rooms (Q p : Nat) (env : ScrapeEnv) (s : String)
    (h : p < Q) :
    roomCount (scrape_station Q p env s).1 = min (Q - p) (stationAvail env s) := by
  unfold scrape_station stationAvail
  cases henv : env s with
  | none => simp [roomCount_nil]
  | some pages =>
    simp only [roomCount_map_setStation]
    rw [scrape_station_aux_rooms Q p pages 10 [] 0 (by simpa [roomCount_nil] using h)]
    simp [roomCount_nil]

theorem availableRooms_cons (env : ScrapeEnv) (s : String) (rest : List String) :
    availableRooms env (s :: rest) = stationAvail env s + availableRooms env rest := by
  simp [availableRooms]

theorem scrape_all_aux_rooms (Q : Nat) (env : ScrapeEnv) :
    ∀ (stations : List String) (acc : List PropertyInfo) (errs : Nat),
      roomCount acc ≤ Q →
      roomCount (scrape_all_aux Q env stations acc errs).1 =
        min Q (roomCount acc + availableRooms env stations) := by
  intro stations
  induction stations with
  | nil =>
    intro acc errs h
    simp [scrape_all_aux, availableRooms]
    omega
  | cons s rest ih =>
    intro acc errs h
    rw [availableRooms_cons]
    by_cases hq : Q ≤ roomCount acc
    · simp only [scrape_all_aux, hq, if_pos]
      omega
    · have hlt : roomCount acc < Q := by omega
      have hst := scrape_station_rooms Q (roomCount acc) env s hlt
      have hacc : roomCount (acc ++ (scrape_station Q (roomCount acc) env s).1) =
          roomCount acc + roomCount (scrape_station Q (roomCount acc) env s).1 :=
        roomCount_append _ _
      have hrec := ih (acc ++ (scrape_station Q (roomCount acc) env s).1)
        (errs + (scrape_station Q (roomCount acc) env s).2) (by omega)
      simp only [scrape_all_aux, hq, if_neg, if_false]
      rw [hrec]
      omega

theorem scrape_all_aux_exit (Q : Nat) (env : ScrapeEnv) (l : List String)
    (acc : List PropertyInfo) (errs : Nat) (h : Q ≤ roomCount acc) :
    scrape_all_aux Q env l acc errs = (acc, errs) := by
  cases l with
  | nil => rfl
  | cons s rest => simp [scrape_all_aux, h]

theorem scrape_all_aux_append (Q : Nat) (env : ScrapeEnv) :
    ∀ (l1 l2 : List String) (acc : List PropertyInfo) (errs : Nat),
      scrape_all_aux Q env (l1 ++ l2) acc errs =
        scrape_all_aux Q env l2 (scrape_all_aux Q env l1 acc errs).1
          (scrape_all_aux Q env l1 acc errs).2 := by
  intro l1
  induction l1 with
  | nil =>
    intro l2 acc errs
    simp [scrape_all_aux]
  | cons s rest ih =>
    intro l2 acc errs
    by_cases hq : Q ≤ roomCount acc
    · simp only [List.cons_append, scrape_all_aux, hq, if_pos]
      exact (scrape_all_aux_exit Q env l2 acc errs hq).symm
    · simp only [List.cons_append, scrape_all_aux, hq, if_neg, if_false]
      exact ih l2 _ _

theorem scrape_all_aux_extends (Q : Nat) (env : ScrapeEnv) :
    ∀ (stations : List String) (acc : List PropertyInfo) (errs : Nat),
      ∃ t, (scrape_all_aux Q env stations acc errs).1 = acc ++ t := by
  intro stations
  induction stations with
  | nil =>
    intro acc errs
    exact ⟨[], by simp [scrape_all_aux]⟩
  | cons s rest ih =>
    intro acc errs
    by_cases hq : Q ≤ roomCount acc
    · exact ⟨[], by simp [scrape_all_aux, hq]⟩
    · obtain ⟨t, ht⟩ := ih (acc ++ (scrape_station Q (roomCount acc) env s).1)
        (errs + (scrape_station Q (roomCount acc) env s).2)
      refine ⟨(scrape_station Q (roomCount acc) env s).1 ++ t, ?_⟩
      simp only [scrape_all_aux, hq, if_neg, if_false]
      rw [ht, List.append_assoc]

/-- C1: the session's total room count never exceeds the quota `Q`; when at
least `Q` rooms were obtainable from the given targets the session returns
exactly `Q` rooms; and at every observation point after truncation — the
committed accumulator at each station boundary, i.e. the session state after
any prefix of the target list, from which the remaining targets continue —
the collected room total is at most `Q`. -/
theorem scrape_all_stations_quota (env : ScrapeEnv) (stations : List String) (Q : Nat) :
    roomCount (scrape_all_stations env stations Q).1 ≤ Q
    ∧ (Q ≤ availableRooms env stations →
        roomCount (scrape_all_stations env stations Q).1 = Q)
    ∧ (∀ l1 l2, stations = l1 ++ l2 →
        roomCount (scrape_all_stations env l1 Q).1 ≤ Q
        ∧ scrape_all_stations env stations Q =
            scrape_all_aux Q env l2 (scrape_all_stations env l1 Q).1
              (scrape_all_stations env l1 Q).2) := by
  have hmin : ∀ l : List String,
      roomCount (scrape_all_stations env l Q).1 = min Q (availableRooms env l) := by
    intro l
    have h := scrape_all_aux_rooms Q env l [] 0 (by simp [roomCount_nil])
    simpa [scrape_all_stations, roomCount_nil] using h
  refine ⟨?_, ?_, ?_⟩
  · rw [hmin stations]
    omega
  · intro hge
    rw [hmin stations]
    omega
  · intro l1 l2 hsplit
    constructor
    · rw [hmin l1]
      omega
    · rw [hsplit]
      exact scrape_all_aux_append Q env l1 l2 [] 0

/-- Concrete session environment used by the witnesses: station `"A"` serves
one page with two valid properties of 3 and 2 rooms; every other name fails
to resolve. -/
def env1 : ScrapeEnv := fun s =>
  if s = "A" then some [some [some ⟨[10, 20, 30], none⟩, some ⟨[40, 50], none⟩]]
  else none

theorem scrape_all_stations_quota_witness :
    roomCount (scrape_all_stations env1 ["A"] 4).1 = 4
    ∧ roomCount (scrape_all_stations env1 [] 4).1 ≤ 4 :=
  ⟨(scrape_all_stations_quota env1 ["A"] 4).2.1 (by decide),
   ((scrape_all_stations_quota env1 ["A"] 4).2.2 [] ["A"] rfl).1⟩

/-! ## Session result (`models.ScrapingResult` and the tail of
`scrape_all_stations`) -/

/-- Shallow embedding of `models.ScrapingResult`: the fields the session
constructs (`scraped_at` is a timestamp irrelevant to the claims). Note it
has no field for validation or extraction failures. -/
structure ScrapingResult where
  properties : List PropertyInfo
  total_count : Nat
  pages_scraped : Nat
  source_url : String
deriving DecidableEq

/-- Construction of a `ScrapingResult` with its pydantic validators:
`validate_properties` rejects an empty property list and `validate_counts`
rejects `total_count ≠ len(properties)`; a `ValidationError` is caught in
`scrape_all_stations`, which then returns `None` — modelled as `none`. -/
def mkScrapingResult (props : List PropertyInfo) (total pages : Nat)
    (url : String) : Option ScrapingResult :=
  if props.isEmpty then none
  else if props.length ≠ total then none
  else some ⟨props, total, pages, url⟩

/-- The `source_url` string built by `scrape_all_stations`. -/
def sourceUrl (stations : List String) : String :=
  "Polite scraping: " ++ String.intercalate "-" stations

/-- Shallow embedding of the full `PoliteSuumoScraper.scrape_all_stations`:
collect, then build the `ScrapingResult` with `total_count` set to the number
of collected properties and `pages_scraped` to the number of stations. -/
def run_session (env : ScrapeEnv) (stations : List String) (Q : Nat) :
    Option ScrapingResult :=
  mkScrapingResult (scrape_all_stations env stations Q).1
    (scrape_all_stations env stations Q).1.length stations.length
    (sourceUrl stations)

/-- C3 counterexample: with one station whose resolution fails nothing is
collected, and the session returns `none` — a result that carries neither the
(empty) collected set nor any failure count, refuting the claim that the
session result does so "including when the collected set is empty". -/
theorem run_session_none_on_empty :
    run_session (fun _ => none) ["渋谷"] 5 = none := rfl

/-- C3 amended: when at least one property was collected the session returns
a result carrying exactly the collected properties (with `total_count` their
number and `pages_scraped` the station count); the validation-failure count
is kept in the scraper state (the second component of the collection phase),
not inside the result; and when nothing was collected the session returns
`none` instead of raising (the embedding is a total function — the
`ValidationError` is caught). -/
theorem run_session_result_spec (env : ScrapeEnv) (stations : List String) (Q : Nat) :
    (run_session env stations Q = none ↔ (scrape_all_stations env stations Q).1 = [])
    ∧ (∀ r, run_session env stations Q = some r →
        r.properties = (scrape_all_stations env stations Q).1
        ∧ r.total_count = (scrape_all_stations env stations Q).1.length
        ∧ r.pages_scraped = stations.length
        ∧ r.source_url = sourceUrl stations) := by
  unfold run_session mkScrapingResult
  constructor
  · by_cases h : (scrape_all_stations env stations Q).1.isEmpty
    · simp only [h, if_pos]
      simpa [List.isEmpty_iff] using h
    · simp only [h, if_neg, if_false, ne_eq, not_true_eq_false]
      simp only [List.isEmpty_iff] at h
      simp [h]
  · intro r hr
    by_cases h : (scrape_all_stations env stations Q).1.isEmpty
    · simp [h] at hr
    · simp [h] at hr
      subst hr
      exact ⟨rfl, rfl, rfl, rfl⟩

theorem run_session_result_spec_witness :
    ∃ r, run_session env1 ["A"] 4 = some r
      ∧ r.total_count = (scrape_all_stations env1 ["A"] 4).1.length := by
  refine ⟨⟨(scrape_all_stations env1 ["A"] 4).1,
    (scrape_all_stations env1 ["A"] 4).1.length, 1, sourceUrl ["A"]⟩, ?_, ?_⟩
  · rfl
  · exact ((run_session_result_spec env1 ["A"] 4).2 _ rfl).2.1

/-- The session result produced by `env1`, stations `["A"]`, quota 4:
targets' two properties hold 3 and 2 rooms, and the second is truncated to
one room to fill the quota exactly. -/
def resultA : ScrapingResult :=
  ⟨[⟨[10, 20, 30], some "A"⟩, ⟨[40], some "A"⟩], 2, 1, "Polite scraping: A"⟩

/-- C10: the result's `total_count` always equals the number of properties
(`len(self.properties)`, enforced again by `validate_counts`), while the
quota counts rooms; consequently a session can return a result whose
`total_count` is strictly smaller than the number of quota-relevant records
(rooms) it carries. -/
theorem total_count_counts_properties :
    (∀ (env : ScrapeEnv) (stations : List String) (Q : Nat) (r : ScrapingResult),
        run_session env stations Q = some r → r.total_count = r.properties.length)
    ∧ (∃ r, run_session env1 ["A"] 4 = some r
        ∧ r.total_count < roomCount r.properties) := by
  constructor
  · intro env stations Q r hr
    unfold run_session mkScrapingResult at hr
    by_cases h : (scrape_all_stations env stations Q).1.isEmpty
    · simp [h] at hr
    · simp [h] at hr
      subst hr
      rfl
  · exact ⟨resultA, by decide, by decide⟩

theorem total_count_counts_properties_witness :
    resultA.total_count = resultA.properties.length :=
  total_count_counts_properties.1 env1 ["A"] 4 resultA (by decide)

/-! ## Partial-failure isolation (C6) -/

/-- A target that can contribute nothing: its resolution fails (unknown
station name — `get_station_url` raises and `scrape_station` returns early)
or every one of its page fetches fails after exhausted retries
(`scrape_page` catches the error and yields no properties). -/
def failingTarget (env : ScrapeEnv) (s : String) : Prop :=
  env s = none ∨ ∃ pages, env s = some pages ∧ ∀ pg ∈ pages, pg = none

theorem scrape_station_aux_all_failed (Q p : Nat) :
    ∀ (pages : List PageFetch) (fuel : Nat), (∀ pg ∈ pages, pg = none) →
      scrape_station_aux Q p fuel pages [] 0 = ([], 0) := by
  intro pages
  induction pages with
  | nil =>
    intro fuel _
    cases fuel <;> rfl
  | cons pg rest ih =>
    intro fuel hall
    have hpg : pg = none := hall pg (List.mem_cons_self pg rest)
    cases fuel with
    | zero => rfl
    | succ fuel =>
      subst hpg
      simp only [scrape_station_aux, scrape_page, fst_pair, snd_pair,
        List.append_nil, Nat.add_zero]
      split
      · rfl
      · exact ih fuel (fun q hq' => hall q (List.mem_cons_of_mem _ hq'))

theorem scrape_station_failed (Q p : Nat) (env : ScrapeEnv) (s : String)
    (hfail : failingTarget env s) :
    scrape_station Q p env s = ([], 0) := by
  unfold scrape_station
  rcases hfail with h | ⟨pages, henv, hall⟩
  · rw [h]
  · rw [henv]
    show (List.map (setStation s) (scrape_station_aux Q p 10 pages [] 0).1,
      (scrape_station_aux Q p 10 pages [] 0).2) = ([], 0)
    rw [scrape_station_aux_all_failed Q p pages 10 hall]
    rfl

/-- C6: a failure confined to one target never aborts the session: that
target contributes zero records and zero recorded validation failures, the
session over any target list containing it equals the session with the
target removed (the controller proceeds to the next target; the embedding is
total, modelling that no exception escapes), and the records collected from
the targets before it are retained as a prefix of the session's result. -/
theorem failed_target_isolated (env : ScrapeEnv) (s : String)
    (hfail : failingTarget env s) :
    (∀ Q p, scrape_station Q p env s = ([], 0))
    ∧ (∀ Q pre post,
        scrape_all_stations env (pre ++ s :: post) Q =
          scrape_all_stations env (pre ++ post) Q)
    ∧ (∀ Q pre post, ∃ t,
        (scrape_all_stations env (pre ++ s :: post) Q).1 =
          (scrape_all_stations env pre Q).1 ++ t) := by
  have hskip : ∀ Q (pre post : List String) (acc : List PropertyInfo) (errs : Nat),
      scrape_all_aux Q env (pre ++ s :: post) acc errs =
        scrape_all_aux Q env (pre ++ post) acc errs := by
    intro Q pre post
    induction pre with
    | nil =>
      intro acc errs
      by_cases hq : Q ≤ roomCount acc
      · simp only [List.nil_append, scrape_all_aux, hq, if_pos]
        exact (scrape_all_aux_exit Q env post acc errs hq).symm
      · simp only [List.nil_append, scrape_all_aux, hq, if_neg, if_false,
          scrape_station_failed Q (roomCount acc) env s hfail, fst_pair, snd_pair,
          List.append_nil, Nat.add_zero]
    | cons a pre ih =>
      intro acc errs
      by_cases hq : Q ≤ roomCount acc
      · simp only [List.cons_append, scrape_all_aux, hq, if_pos]
      · simp only [List.cons_append, scrape_all_aux, hq, if_neg, if_false]
        exact ih _ _
  refine ⟨fun Q p => scrape_station_failed Q p env s hfail, ?_, ?_⟩
  · intro Q pre post
    exact hskip Q pre post [] 0
  · intro Q pre post
    unfold scrape_all_stations
    rw [hskip Q pre post [] 0, scrape_all_aux_append Q env pre post [] 0]
    exact scrape_all_aux_extends Q env post _ _

/-- Concrete environment for the partial-failure witness: station `"A"`
serves one page whose fetch always fails; station `"B"` serves one page with
one valid two-room property. -/
def envF : ScrapeEnv := fun s =>
  if s = "A" then some [none]
  else if s = "B" then some [some [some ⟨[7, 8], none⟩]]
  else none

theorem failed_target_isolated_witness :
    scrape_all_stations envF ["A", "B"] 3 = scrape_all_stations envF ["B"] 3 :=
  (failed_target_isolated envF "A" (Or.inr ⟨[none], rfl, by decide⟩)).2.1 3 [] ["B"]

/-! ## Retry execution (`RetryManager.execute_with_retry`) -/

/-- Loop body of `RetryManager.execute_with_retry`: `op` maps the 0-indexed
attempt number to its outcome (the operation is opaque; every error is
retried), `k` is the current attempt and `rem` the attempts remaining after
it (`max_retries - k`). On the final attempt the last underlying error is
re-raised; otherwise a failure backs off and retries. Returns the outcome
together with the number of attempts executed. -/
def execute_with_retry_aux {E A : Type} (op : Nat → Except E A) :
    Nat → Nat → Except E A × Nat
  | k, 0 =>
    match op k with
    | Except.ok v => (Except.ok v, k + 1)
    | Except.error e => (Except.error e, k + 1)
  | k, rem + 1 =>
    match op k with
    | Except.ok v => (Except.ok v, k + 1)
    | Except.error _ => execute_with_retry_aux op (k + 1) rem

/-- Shallow embedding of `RetryManager.execute_with_retry`
(`for attempt in range(max_retries + 1)`), with the attempt count made
observable. -/
def execute_with_retry {E A : Type} (max_retries : Nat) (op : Nat → Except E A) :
    Except E A × Nat :=
  execute_with_retry_aux op 0 max_retries

theorem execute_with_retry_aux_le {E A : Type} (op : Nat → Except E A) :
    ∀ (rem k : Nat), (execute_with_retry_aux op k rem).2 ≤ k + rem + 1 := by
  intro rem
  induction rem with
  | zero =>
    intro k
    unfold execute_with_retry_aux
    cases op k <;> simp
  | succ rem ih =>
    intro k
    unfold execute_with_retry_aux
    cases op k with
    | ok v => simp
    | error e =>
      have h := ih (k + 1)
      simpa [Nat.add_assoc, Nat.add_comm, Nat.add_left_comm] using h

theorem execute_with_retry_aux_all_fail {E A : Type} (op : Nat → Except E A) :
    ∀ (rem k : Nat), (∀ j, k ≤ j → j < k + rem → ∃ e, op j = Except.error e) →
      execute_with_retry_aux op k rem = (op (k + rem), k + rem + 1) := by
  intro rem
  induction rem with
  | zero =>
    intro k _
    unfold execute_with_retry_aux
    cases hk : op k <;> simp [hk]
  | succ rem ih =>
    intro k hfail
    obtain ⟨e, he⟩ := hfail k (Nat.le_refl k) (by omega)
    unfold execute_with_retry_aux
    rw [he]
    have hshift : ∀ j, k + 1 ≤ j → j < k + 1 + rem → ∃ e, op j = Except.error e := by
      intro j hj1 hj2
      exact hfail j (by omega) (by omega)
    rw [ih (k + 1) hshift]
    have harith : k + 1 + rem = k + (rem + 1) := by omega
    rw [harith]

/-- C4: `execute_with_retry` attempts the operation at most
`max_retries + 1` times; an operation failing on every attempt before index
`max_retries` and succeeding there returns the success value after exactly
`max_retries + 1` attempts; and an operation failing on all
`max_retries + 1` attempts surfaces the last underlying error after exactly
`max_retries + 1` attempts. -/
theorem execute_with_retry_spec {E A : Type} (max_retries : Nat)
    (op : Nat → Except E A) :
    (execute_with_retry max_retries op).2 ≤ max_retries + 1
    ∧ (∀ v, (∀ j, j < max_retries → ∃ e, op j = Except.error e) →
        op max_retries = Except.ok v →
        execute_with_retry max_retries op = (Except.ok v, max_retries + 1))
    ∧ ((∀ j, j ≤ max_retries → ∃ e, op j = Except.error e) →
        ∃ e, op max_retries = Except.error e
          ∧ execute_with_retry max_retries op = (Except.error e, max_retries + 1)) := by
  refine ⟨?_, ?_, ?_⟩
  · have h := execute_with_retry_aux_le op max_retries 0
    simpa [execute_with_retry] using h
  · intro v hfail hok
    have h := execute_with_retry_aux_all_fail op max_retries 0
      (fun j hj1 hj2 => hfail j (by omega))
    unfold execute_with_retry
    rw [h]
    simp [hok]
  · intro hfail
    obtain ⟨e, he⟩ := hfail max_retries (Nat.le_refl _)
    refine ⟨e, he, ?_⟩
    have h := execute_with_retry_aux_all_fail op max_retries 0
      (fun j hj1 hj2 => hfail j (by omega))
    unfold execute_with_retry
    rw [h]
    simp [he]

/-- Operation used by the retry witnesses: fails on attempts 0 and 1,
succeeds on attempt 2. -/
def opRetryW : Nat → Except String Nat :=
  fun k => if k < 2 then Except.error "boom" else Except.ok 42

theorem execute_with_retry_spec_witness :
    execute_with_retry 2 opRetryW = (Except.ok 42, 3) :=
  (execute_with_retry_spec 2 opRetryW).2.1 42
    (fun j hj => ⟨"boom", by simp [opRetryW, hj]⟩) (by simp [opRetryW])

/-! ## Request pacing (`RateLimiter.wait_for_request`) -/

/-- Shallow embedding of `RateLimitConfig` (delays as exact rationals in
seconds in place of Python floats). -/
structure RateLimitConfig where
  min_delay : ℚ
  max_delay : ℚ
  page_delay : ℚ
  station_delay : ℚ
  max_retries : Nat
  retry_delay : ℚ
  concurrent_limit : Nat
deriving DecidableEq

/-- The dataclass defaults of `RateLimitConfig`. -/
def defaultRateLimitConfig : RateLimitConfig := ⟨3, 8, 5, 10, 3, 5, 1⟩

/-- The `RateLimiter` state the pacing method reads and writes:
`last_request_time` and `request_count`. -/
structure RateLimiterState where
  last_request_time : ℚ
  request_count : Nat
deriving DecidableEq

/-- The delay `wait_for_request` requires for a request type: the fixed
`page_delay` or `station_delay` for the typed classes, and the sampled value
`r` of `random.uniform(min_delay, max_delay)` for any other type. -/
def requiredDelay (config : RateLimitConfig) (request_type : String) (r : ℚ) : ℚ :=
  if request_type = "page" then config.page_delay
  else if request_type = "station" then config.station_delay
  else r

/-- Shallow embedding of `RateLimiter.wait_for_request` under an ideal
logical clock: `now` is `time.time()` on entry and `r` the sampled uniform
delay; the first component is the time at which the call returns (after
sleeping the remainder when the elapsed time since `last_request_time` is
below the required delay), and the state update sets `last_request_time` to
that return time and increments `request_count`. -/
def wait_for_request (config : RateLimitConfig) (st : RateLimiterState)
    (request_type : String) (now r : ℚ) : ℚ × RateLimiterState :=
  let elapsed := now - st.last_request_time
  let required := requiredDelay config request_type r
  let ret := if elapsed < required then now + (required - elapsed) else now
  (ret, ⟨ret, st.request_count + 1⟩)

/-- The `RateLimitConfig` invariant stated by the claim: all delays are
non-negative and `min_delay ≤ max_delay`. -/
def validConfig (config : RateLimitConfig) : Prop :=
  0 ≤ config.min_delay ∧ config.min_delay ≤ config.max_delay
    ∧ 0 ≤ config.page_delay ∧ 0 ≤ config.station_delay

/-- The configured minimum delay for a request class: `page_delay` for
`"page"`, `station_delay` for `"station"`, `min_delay` (the lower jitter
bound) for generic requests. -/
def classMinDelay (config : RateLimitConfig) (request_type : String) : ℚ :=
  if request_type = "page" then config.page_delay
  else if request_type = "station" then config.station_delay
  else config.min_delay

/-- C8: for a valid configuration and a uniform sample within its bounds,
`wait_for_request` never returns before the configured minimum delay for the
request class has elapsed since the previous call (whose return time is the
stored `last_request_time`), and the state records the new return time as
`last_request_time` for the next call. -/
theorem wait_for_request_min_delay (config : RateLimitConfig)
    (st : RateLimiterState) (request_type : String) (now r : ℚ)
    (hvalid : validConfig config)
    (hr : config.min_delay ≤ r ∧ r ≤ config.max_delay) :
    st.last_request_time + classMinDelay config request_type ≤
        (wait_for_request config st request_type now r).1
    ∧ (wait_for_request config st request_type now r).2.last_request_time =
        (wait_for_request config st request_type now r).1 := by
  have hreq : classMinDelay config request_type ≤ requiredDelay config request_type r := by
    unfold classMinDelay requiredDelay
    split_ifs
    · exact le_refl _
    · exact le_refl _
    · exact hr.1
  constructor
  · by_cases hel : now - st.last_request_time < requiredDelay config request_type r
    · simp only [wait_for_request, hel, if_pos, fst_pair]
      linarith
    · simp only [wait_for_request, hel, if_neg, if_false, fst_pair]
      push_neg at hel
      linarith
  · rfl

theorem wait_for_request_min_delay_witness :
    (⟨0, 0⟩ : RateLimiterState).last_request_time
        + classMinDelay defaultRateLimitConfig "page" ≤
      (wait_for_request defaultRateLimitConfig ⟨0, 0⟩ "page" 1 3).1 :=
  (wait_for_request_min_delay defaultRateLimitConfig ⟨0, 0⟩ "page" 1 3
    (by refine ⟨by norm_num [defaultRateLimitConfig], by norm_num [defaultRateLimitConfig],
      by norm_num [defaultRateLimitConfig], by norm_num [defaultRateLimitConfig]⟩)
    ⟨by norm_num [defaultRateLimitConfig], by norm_num [defaultRateLimitConfig]⟩).1

/-! ## Request monitoring (`RequestMonitor`) and the gate
(`PoliteRequestManager.make_request`) -/

/-- Shallow embedding of the `RequestMonitor` state: the stored record per
request is only its timestamp (`request_times`, an integer clock in
seconds; the success flag goes into the counters and the latency argument is
discarded by the method). -/
structure RequestMonitor where
  request_times : List Int
  success_count : Nat
  error_count : Nat
deriving DecidableEq

/-- Shallow embedding of `RequestMonitor.record_request` at clock time
`now`: appends the current timestamp, bumps the success or error counter,
and prunes entries at or before `now - 3600` (the 1-hour retention window);
`response_time` is accepted and ignored, as in the source. -/
def record_request (m : RequestMonitor) (success : Bool) (response_time : Int)
    (now : Int) : RequestMonitor :=
  { request_times :=
      (m.request_times ++ [now]).filter (fun t => decide (now - 3600 < t)),
    success_count := if success then m.success_count + 1 else m.success_count,
    error_count := if success then m.error_count else m.error_count + 1 }

/-- The boolean outcome of a completed request (the try/except branch taken
in `make_request`). -/
def resultOk {E A : Type} : Except E A → Bool
  | Except.ok _ => true
  | Except.error _ => false

/-- The monitor update performed by one `PoliteRequestManager.make_request`
call: the retry executor runs to completion and exactly one record with the
overall outcome is written, whatever the number of attempts; `latency` is
the measured `time.time() - start_time`. -/
def make_request_monitor {E A : Type} (max_retries : Nat)
    (op : Nat → Except E A) (m : RequestMonitor) (now latency : Int) :
    RequestMonitor :=
  record_request m (resultOk (execute_with_retry max_retries op).1) latency now

/-- Operation taking two attempts: fails once, then succeeds. -/
def opTwoAttempts : Nat → Except String Nat :=
  fun k => if k = 0 then Except.error "transient" else Except.ok 7

/-- C7 counterexample: a request that took 2 attempts through the retry
executor appends exactly 1 record to the monitor, not one per attempt —
`record_request` is called once per `make_request`, never from inside the
retry loop. -/
theorem monitor_one_record_for_two_attempts :
    (execute_with_retry 3 opTwoAttempts).2 = 2
    ∧ (make_request_monitor 3 opTwoAttempts ⟨[], 0, 0⟩ 0 1).request_times.length
        = 1 := by
  constructor
  · rfl
  · decide

/-- C7 amended: each completed `make_request` appends exactly one record (a
timestamp) to the monitor regardless of the number of retry attempts; stored
timestamps are never mutated — every entry after the update is either an
unchanged earlier entry or the new timestamp; entries older than the 1-hour
retention window are pruned on append and every surviving entry lies inside
the window; and exactly one of the success/error counters is incremented. -/
theorem make_request_monitor_spec {E A : Type} (max_retries : Nat)
    (op : Nat → Except E A) (m : RequestMonitor) (now latency : Int) :
    (make_request_monitor max_retries op m now latency).request_times =
        m.request_times.filter (fun t => decide (now - 3600 < t)) ++ [now]
    ∧ (∀ t ∈ (make_request_monitor max_retries op m now latency).request_times,
        now - 3600 < t ∧ (t ∈ m.request_times ∨ t = now))
    ∧ (make_request_monitor max_retries op m now latency).success_count
          + (make_request_monitor max_retries op m now latency).error_count
        = m.success_count + m.error_count + 1 := by
  have hnow : now - 3600 < now := by omega
  have htimes : (make_request_monitor max_retries op m now latency).request_times =
      m.request_times.filter (fun t => decide (now - 3600 < t)) ++ [now] := by
    simp [make_request_monitor, record_request, List.filter_append, hnow]
  refine ⟨htimes, ?_, ?_⟩
  · intro t ht
    rw [htimes] at ht
    rcases List.mem_append.mp ht with hin | hin
    · have := List.of_mem_filter hin
      refine ⟨by simpa using this, Or.inl (List.mem_of_mem_filter hin)⟩
    · have : t = now := by simpa using hin
      subst this
      exact ⟨hnow, Or.inr rfl⟩
  · unfold make_request_monitor record_request
    cases resultOk (execute_with_retry max_retries op).1 <;> simp <;> omega

theorem make_request_monitor_spec_witness :
    (3 : Int) - 3600 < 2
    ∧ ((2 : Int) ∈ (⟨[2], 1, 0⟩ : RequestMonitor).request_times ∨ (2 : Int) = 3) :=
  (make_request_monitor_spec 3 opTwoAttempts ⟨[2], 1, 0⟩ 3 1).2.1 2 (by decide)

/-! ## Gate step ordering (`PoliteRequestManager.make_request`) -/

/-- Observable steps of one request through the gate. -/
inductive GateEvent where
  | acquireSlot : GateEvent
  | paceWait : String → GateEvent
  | releaseSlot : GateEvent
  | attemptOp : Nat → GateEvent
  | recordOutcome : Bool → GateEvent
deriving DecidableEq

/-- Event trace of `RateLimiter.wait_for_request`: the semaphore
(`async with self._semaphore`) wraps only the pacing computation and sleep,
so the concurrency slot is acquired on entry and released when the method
returns. -/
def wait_for_request_trace (request_type : String) : List GateEvent :=
  [GateEvent.acquireSlot, GateEvent.paceWait request_type, GateEvent.releaseSlot]

/-- Attempt events of `RetryManager.execute_with_retry`: one per executed
attempt, in attempt order. -/
def retry_trace_aux {E A : Type} (op : Nat → Except E A) : Nat → Nat → List GateEvent
  | k, 0 => [GateEvent.attemptOp k]
  | k, rem + 1 =>
    match op k with
    | Except.ok _ => [GateEvent.attemptOp k]
    | Except.error _ => GateEvent.attemptOp k :: retry_trace_aux op (k + 1) rem

/-- Event trace of `PoliteRequestManager.make_request`: the pacing call
(which holds the slot), then the retry attempts, then the single monitor
record carrying the overall outcome; the retry executor's terminal error,
when all attempts fail, is re-raised after recording. -/
def make_request_trace {E A : Type} (max_retries : Nat) (request_type : String)
    (op : Nat → Except E A) : List GateEvent :=
  wait_for_request_trace request_type ++ retry_trace_aux op 0 max_retries
    ++ [GateEvent.recordOutcome (resultOk (execute_with_retry max_retries op).1)]

/-- Recognizer for monitor-record events. -/
def isRecordOutcome : GateEvent → Bool
  | GateEvent.recordOutcome _ => true
  | _ => false

/-- C2 counterexample: on a request that succeeds on its first attempt, the
concurrency slot is released at trace position 2, before the operation
executes (position 3) and before the outcome is recorded (position 4) — the
slot is not held through steps 2–4, refuting the claimed acquire/release
bracketing. -/
theorem release_before_record_counterexample :
    (make_request_trace 3 "page" (fun _ => (Except.ok 0 : Except String Nat)))[2]? =
        some GateEvent.releaseSlot
    ∧ (make_request_trace 3 "page" (fun _ => (Except.ok 0 : Except String Nat)))[3]? =
        some (GateEvent.attemptOp 0)
    ∧ (make_request_trace 3 "page" (fun _ => (Except.ok 0 : Except String Nat)))[4]? =
        some (GateEvent.recordOutcome true)
    ∧ (2 : Nat) < 4 := by
  refine ⟨rfl, rfl, rfl, by omega⟩

theorem retry_trace_aux_only_attempts {E A : Type} (op : Nat → Except E A) :
    ∀ (rem k : Nat) (e : GateEvent), e ∈ retry_trace_aux op k rem →
      ∃ j, e = GateEvent.attemptOp j := by
  intro rem
  induction rem with
  | zero =>
    intro k e he
    unfold retry_trace_aux at he
    simp only [List.mem_singleton] at he
    exact ⟨k, he⟩
  | succ rem ih =>
    intro k e he
    unfold retry_trace_aux at he
    cases hop : op k with
    | ok v =>
      rw [hop] at he
      simp only [List.mem_singleton] at he
      exact ⟨k, he⟩
    | error err =>
      rw [hop] at he
      simp only [List.mem_cons] at he
      rcases he with h | h
      · exact ⟨k, h⟩
      · exact ih (k + 1) e h

/-- C2 amended: each `make_request` performs its steps in the order: acquire
the concurrency slot, pace, release the slot, execute the attempts through
the retry executor, record the outcome once to the monitor; the slot is held
only for the pacing delay and is released before the operation executes and
before the outcome is recorded; the recorded flag matches the retry
executor's overall outcome and is the final event. -/
theorem make_request_trace_order {E A : Type} (max_retries : Nat)
    (request_type : String) (op : Nat → Except E A) :
    (make_request_trace max_retries request_type op)[0]? = some GateEvent.acquireSlot
    ∧ (make_request_trace max_retries request_type op)[1]? =
        some (GateEvent.paceWait request_type)
    ∧ (make_request_trace max_retries request_type op)[2]? = some GateEvent.releaseSlot
    ∧ (∀ e ∈ (make_request_trace max_retries request_type op).drop 3,
        (∃ k, e = GateEvent.attemptOp k) ∨
          e = GateEvent.recordOutcome (resultOk (execute_with_retry max_retries op).1))
    ∧ (make_request_trace max_retries request_type op).getLast? =
        some (GateEvent.recordOutcome (resultOk (execute_with_retry max_retries op).1))
    ∧ ((make_request_trace max_retries request_type op).filter isRecordOutcome).length
        = 1 := by
  refine ⟨?_, ?_, ?_, ?_, ?_, ?_⟩
  · simp [make_request_trace, wait_for_request_trace]
  · simp [make_request_trace, wait_for_request_trace]
  · simp [make_request_trace, wait_for_request_trace]
  · intro e he
    have he' : e ∈ retry_trace_aux op 0 max_retries
        ++ [GateEvent.recordOutcome (resultOk (execute_with_retry max_retries op).1)] := he
    rcases List.mem_append.mp he' with h | h
    · exact Or.inl (retry_trace_aux_only_attempts op max_retries 0 e h)
    · exact Or.inr (by simpa using h)
  · unfold make_request_trace
    exact List.getLast?_concat _
  · unfold make_request_trace wait_for_request_trace
    have hretry : (retry_trace_aux op 0 max_retries).filter isRecordOutcome = [] := by
      rw [List.filter_eq_nil_iff]
      intro e he
      obtain ⟨j, hj⟩ := retry_trace_aux_only_attempts op max_retries 0 e he
      subst hj
      simp [isRecordOutcome]
    simp [List.filter_append, hretry, isRecordOutcome]

theorem make_request_trace_order_witness :
    (make_request_trace 1 "station" (fun _ => (Except.ok 5 : Except String Nat)))[0]? =
        some GateEvent.acquireSlot
    ∧ ((∃ k, GateEvent.attemptOp 0 = GateEvent.attemptOp k) ∨
        GateEvent.attemptOp 0 = GateEvent.recordOutcome
          (resultOk (execute_with_retry 1 (fun _ => (Except.ok 5 : Except String Nat))).1)) :=
  ⟨(make_request_trace_order 1 "station" (fun _ => (Except.ok 5 : Except String Nat))).1,
   (make_request_trace_order 1 "station" (fun _ => (Except.ok 5 : Except String Nat))).2.2.2.1
     (GateEvent.attemptOp 0) (by decide)⟩
